import Mathlib

/-!
Verification of the round-based debate orchestration engine of this repository
(backend/app/agents/base.py and backend/app/api/debate.py).

The Python source is shallowly embedded below:
* pure helpers (`_fallback_choice`, `_parse_json_response`, the retry loop of
  `_generate_with_retry`) are translated to executable Lean functions;
* each agent-facing operation (`generate_response`, `ask_question`,
  `respond_to_question`, `final_opinion`, the officer's question and decision
  generators) is translated with the opaque text-generation + JSON-parse
  pipeline abstracted as an input value: `none` models the pipeline raising an
  exception (generation failure after retries, JSON parse failure, a missing
  required field raising inside the `try` block), `some p` models the parsed
  payload, whose fields already carry the `dict.get` defaults used by the code
  (missing string fields become `""`);
* the driver `run_debate_process` is translated as a pure function from the
  roster and the per-call generation outcomes to the final session state and
  the append-ordered transcript, each appended message tagged with the value
  `current_round` had at the moment of the append (the code sets
  `current_round := k` in `emit_round_start` before the round-`k` appends).
Timestamps, logging, Socket.IO event emission and the pacing `asyncio.sleep`
calls carry no session state and are omitted.
-/

/-- The `message_type` literal of `AgentMessage` (backend/app/models/debate.py). -/
inductive MessageType where
  | initial_opinion
  | question
  | response
  | final_opinion
  | officer_question
  | decision
deriving DecidableEq, Repr

/-- The `status` literal of `DebateResult` (backend/app/models/debate.py). -/
inductive Status where
  | started
  | in_progress
  | completed
  | failed
deriving DecidableEq, Repr

/-- Model of `AgentMessage` (backend/app/models/debate.py), without the timestamp field,
which no claim mentions.  `choice` and `target_agent` are `Optional[str]` in
the source; note that the code distinguishes `None` from `""` only through
truthiness tests, which we translate explicitly at each use site. -/
structure AgentMessage where
  agent_id : String
  agent_name : String
  message : String
  choice : Option String
  message_type : MessageType
  target_agent : Option String
  round_number : Nat
deriving DecidableEq, Repr

/-- Model of `BaseAgent._create_agent_message` (base.py lines 101-119). -/
def create_agent_message (agent_id agent_name message : String)
    (choice : Option String) (message_type : MessageType)
    (target_agent : Option String) (round_number : Nat) : AgentMessage :=
  ⟨agent_id, agent_name, message, choice, message_type, target_agent, round_number⟩

/-- Key list of a Python dict built by inserting the elements of `l` in order:
first occurrence wins, insertion order is preserved.  Models the key order of
`\x7boption: 0 for option in options\x7d` in `_fallback_choice`. -/
def pyDictKeys : List String → List String
  | [] => []
  | o :: rest => o :: (pyDictKeys rest).filter (fun k => decide (k ≠ o))

/-- The count `choice_counts[o]` accumulated by the loop of
`OfficerAgent._fallback_choice` (base.py lines 586-588): a message is counted
for key `o` iff `msg.choice` is truthy (not `None`, not `""`) and equals `o`.
Hence the entry of an empty-string key can never be incremented. -/
def choiceCount (debate_messages : List AgentMessage) (o : String) : Nat :=
  if o = "" then 0
  else (debate_messages.filter (fun m => decide (m.choice = some o))).length

/-- The insertion-ordered dict `choice_counts` of `_fallback_choice`. -/
def choice_counts (options : List String) (debate_messages : List AgentMessage) :
    List (String × Nat) :=
  (pyDictKeys options).map (fun o => (o, choiceCount debate_messages o))

/-- The loop of Python `max(iterable, key=f)`: the running best is replaced
only on a strictly greater key value, so the first maximal element wins. -/
def pyMaxGo (best : String) (bestv : Nat) : List (String × Nat) → String
  | [] => best
  | p :: rest => if bestv < p.2 then pyMaxGo p.1 p.2 rest else pyMaxGo best bestv rest

/-- Python `max(d, key=d.get)` over an association list in key order; `none`
models the `ValueError` raised on an empty iterable. -/
def pyMaxByValue : List (String × Nat) → Option String
  | [] => none
  | p :: rest => some (pyMaxGo p.1 p.2 rest)

/-- Model of `OfficerAgent._fallback_choice` (base.py lines 578-591): tally truthy
`choice` values over a dict keyed by `options` and return the first key with
the maximal count.  `none` models the `ValueError` of `max` on an empty dict
(possible only for `options = []`). -/
def fallback_choice (options : List String) (debate_messages : List AgentMessage) :
    Option String :=
  pyMaxByValue (choice_counts options debate_messages)

/-- First maximizer of `f` over a list: the textbook "highest value, ties
broken by earliest position" selection, used to state what the fallback tally
computes. -/
def firstArgmax (f : String → Nat) : List String → Option String
  | [] => none
  | o :: rest =>
    match firstArgmax f rest with
    | none => some o
    | some b => if f o < f b then some b else some o

/-- The tally that claim C3 describes: every message whose `choice` is a
member of the key set is counted, including a message whose choice is the
empty string when `""` is itself one of the options. -/
def claimTallyCount (debate_messages : List AgentMessage) (o : String) : Nat :=
  (debate_messages.filter (fun m => decide (m.choice = some o))).length

/-- The fallback selection as worded by claim C3: first maximizer of
`claimTallyCount` in options (key) order. -/
def claim_fallback_choice (options : List String) (debate_messages : List AgentMessage) :
    Option String :=
  firstArgmax (claimTallyCount debate_messages) (pyDictKeys options)

/-- Concrete transcript used by the C3 counterexample: choices `["", "", "B"]`
with options `["", "B"]`. -/
def c3CexMessages : List AgentMessage :=
  [create_agent_message "a1" "A1" "m1" (some "") .initial_opinion none 1,
   create_agent_message "a2" "A2" "m2" (some "") .initial_opinion none 1,
   create_agent_message "a3" "A3" "m3" (some "B") .initial_opinion none 1]

/-- Concrete transcript carrying choices `[A, B, A, C]`, the worked example of
claim C3. -/
def c3AbacMessages : List AgentMessage :=
  [create_agent_message "a1" "A1" "m1" (some "A") .initial_opinion none 1,
   create_agent_message "a2" "A2" "m2" (some "B") .initial_opinion none 1,
   create_agent_message "a3" "A3" "m3" (some "A") .initial_opinion none 2,
   create_agent_message "a4" "A4" "m4" (some "C") .initial_opinion none 2]

/-- Concrete message used by the C10 witness: its choice `"C"` lies outside
the options `["A", "B"]`. -/
def c10WitnessMessage : AgentMessage :=
  create_agent_message "a1" "A1" "m1" (some "C") .initial_opinion none 1

/-- The whitespace set of Python `str.strip()` with no argument. -/
def isPySpace (c : Char) : Bool :=
  decide (c = ' ' ∨ c = '\t' ∨ c = '\n' ∨ c = '\r' ∨ c = '\x0b' ∨ c = '\x0c')

/-- Python `str.strip()`: drop leading and trailing whitespace. -/
def pyStrip (s : String) : String :=
  ⟨((s.data.dropWhile isPySpace).reverse.dropWhile isPySpace).reverse⟩

/-- One attempt of the loop body of `BaseAgent._generate_with_retry` (base.py
lines 57-68).  `provider attempt` is the outcome of the provider call on that
attempt (`.error` models a raised exception); a returned string that is empty
or whitespace-only fails the `if response and response.strip()` test and
raises `ValueError("Empty response from AI provider")`. -/
def attemptOutcome (provider : Nat → Except String String) (attempt : Nat) :
    Except String String :=
  match provider attempt with
  | .error e => .error e
  | .ok r => if r ≠ "" ∧ pyStrip r ≠ "" then .ok r else .error "Empty response from AI provider"

/-- Observable outcome of `_generate_with_retry`: the value returned or the
error finally raised, the backoff sleeps performed between attempts in order,
and the number of provider calls made. -/
structure RetryResult where
  result : Except String String
  delays : List Nat
  calls : Nat
deriving Repr

/-- The `for attempt in range(self.max_retries)` loop of
`_generate_with_retry` (base.py lines 55-81), with `fuel` the number of
remaining attempts and `last` the current `last_error`.  A sleep of
`2 ^ attempt` is recorded only when `attempt < max_retries - 1`, i.e. when at
least one further attempt remains; when the loop ends without a success the
last error is re-raised. -/
def retryLoop (provider : Nat → Except String String) :
    Nat → Nat → String → RetryResult
  | 0, _, last => ⟨.error last, [], 0⟩
  | Nat.succ fuel, attempt, _ =>
    match attemptOutcome provider attempt with
    | .ok r => ⟨.ok r, [], 1⟩
    | .error e =>
      match fuel with
      | 0 => ⟨.error e, [], 1⟩
      | Nat.succ f =>
        let rest := retryLoop provider (Nat.succ f) (attempt + 1) e
        ⟨rest.result, 2 ^ attempt :: rest.delays, rest.calls + 1⟩

/-- Model of `BaseAgent._generate_with_retry` (base.py lines 48-81) as a function of
the per-attempt provider outcomes and the configured `max_retries`
(constructor default 3).  The initial `last` string is irrelevant: it is
raised only when `max_retries = 0`, in which case the Python loop body never
runs and `raise last_error` re-raises the initial `None`. -/
def generate_with_retry (provider : Nat → Except String String)
    (max_retries : Nat) : RetryResult :=
  retryLoop provider max_retries 0 "NoneType: None"

/-- Provider used by the C4 witness: attempts 0 and 1 raise, attempt 2
returns a non-blank string. -/
def c4WitnessProvider (attempt : Nat) : Except String String :=
  if attempt = 0 then .error "timeout"
  else if attempt = 1 then .ok "   "
  else .ok "a fine answer"

/-- Provider whose attempts all fail, used by the C4 witness: attempt 2
raises `quota`. -/
def c4FailProvider (attempt : Nat) : Except String String :=
  if attempt = 2 then .error "quota" else .error "timeout"

/-- JSON values as produced by Python `json.loads`, with an object kept as the
association list of its members in source order (the claims only ever compare
objects with distinct keys, where this is faithful) and numbers restricted to
integers (no claim input carries a fractional literal). -/
inductive JsonVal where
  | null
  | bool (b : Bool)
  | num (n : Int)
  | str (s : String)
  | arr (xs : List JsonVal)
  | obj (fields : List (String × JsonVal))
deriving Repr

/-- JSON insignificant whitespace. -/
def isJsonWs (c : Char) : Bool :=
  decide (c = ' ' ∨ c = '\t' ∨ c = '\n' ∨ c = '\r')

/-- Skip insignificant whitespace. -/
def skipWs (s : List Char) : List Char := s.dropWhile isJsonWs

/-- Parse the body of a JSON string after its opening quote, up to the closing
quote.  Escape sequences are rejected (no claim input contains one), which
only narrows the accepted language. -/
def parseStrBody : List Char → Option (String × List Char)
  | [] => none
  | c :: rest =>
    if c = '\"' then some ("", rest)
    else if c = '\\' then none
    else
      match parseStrBody rest with
      | some (s, r) => some (⟨c :: s.data⟩, r)
      | none => none

/-- Split a maximal digit prefix. -/
def digitsPrefix (s : List Char) : List Char × List Char :=
  (s.takeWhile (fun c => c.isDigit), s.dropWhile (fun c => c.isDigit))

/-- Number denoted by a digit string. -/
def digitsToNat (ds : List Char) : Nat :=
  ds.foldl (fun acc c => 10 * acc + (c.toNat - 48)) 0

mutual

/-- Parse one JSON value at the head of the input (no leading whitespace),
returning it with the unconsumed remainder; `none` is a parse error.  `fuel`
bounds the recursion depth and is chosen large enough by `jsonLoads`. -/
def parseVal : Nat → List Char → Option (JsonVal × List Char)
  | 0, _ => none
  | Nat.succ fuel, s =>
    match s with
    | [] => none
    | c :: rest =>
      if c = '\"' then
        match parseStrBody rest with
        | some (v, r) => some (.str v, r)
        | none => none
      else if c = '\x7b' then parseObj fuel (skipWs rest) true []
      else if c = '[' then parseArr fuel (skipWs rest) true []
      else if c = 't' then
        match rest with
        | 'r' :: 'u' :: 'e' :: r => some (.bool true, r)
        | _ => none
      else if c = 'f' then
        match rest with
        | 'a' :: 'l' :: 's' :: 'e' :: r => some (.bool false, r)
        | _ => none
      else if c = 'n' then
        match rest with
        | 'u' :: 'l' :: 'l' :: r => some (.null, r)
        | _ => none
      else if c = '-' then
        match digitsPrefix rest with
        | ([], _) => none
        | (ds, r) => some (.num (-(digitsToNat ds : Int)), r)
      else if c.isDigit then
        match digitsPrefix (c :: rest) with
        | ([], _) => none
        | (ds, r) => some (.num (digitsToNat ds), r)
      else none

/-- Parse the members of a JSON object after its opening brace (whitespace
already skipped); `isFirst` is true when no member has been parsed yet, so
that only `\x7b\x7d` and not a trailing comma closes the object. -/
def parseObj : Nat → List Char → Bool → List (String × JsonVal) →
    Option (JsonVal × List Char)
  | 0, _, _, _ => none
  | Nat.succ fuel, s, isFirst, acc =>
    match s with
    | [] => none
    | c :: rest =>
      if c = '\x7d' then
        if isFirst then some (.obj [], rest) else none
      else if c = '\"' then
        match parseStrBody rest with
        | none => none
        | some (k, r1) =>
          match skipWs r1 with
          | ':' :: r2 =>
            match parseVal fuel (skipWs r2) with
            | none => none
            | some (v, r3) =>
              match skipWs r3 with
              | ',' :: r4 => parseObj fuel (skipWs r4) false (acc ++ [(k, v)])
              | '\x7d' :: r4 => some (.obj (acc ++ [(k, v)]), r4)
              | _ => none
          | _ => none
      else none

/-- Parse the elements of a JSON array after its opening bracket (whitespace
already skipped). -/
def parseArr : Nat → List Char → Bool → List JsonVal →
    Option (JsonVal × List Char)
  | 0, _, _, _ => none
  | Nat.succ fuel, s, isFirst, acc =>
    match s with
    | [] => none
    | c :: rest =>
      if c = ']' ∧ isFirst then some (.arr [], rest)
      else
        match parseVal fuel s with
        | none => none
        | some (v, r1) =>
          match skipWs r1 with
          | ',' :: r2 => parseArr fuel (skipWs r2) false (acc ++ [v])
          | ']' :: r2 => some (.arr (acc ++ [v]), r2)
          | _ => none

end

/-- Python `json.loads`: parse one value surrounded by optional whitespace and
reject any trailing data (`json.JSONDecodeError: Extra data`).  `none` models
the raised `JSONDecodeError`. -/
def jsonLoads (s : List Char) : Option JsonVal :=
  match parseVal (s.length + 1) (skipWs s) with
  | some (v, rest) => if skipWs rest = [] then some v else none
  | none => none

/-- Index of the first occurrence of `c`. -/
def pyFindAux (c : Char) : List Char → Option Nat
  | [] => none
  | x :: xs => if x = c then some 0 else (pyFindAux c xs).map (fun i => i + 1)

/-- Python `str.find(c)`: index of the first occurrence, `none` for the
sentinel `-1`. -/
def pyFind (s : List Char) (c : Char) : Option Nat :=
  pyFindAux c s

/-- Python `str.rfind(c)`: index of the last occurrence, `none` for `-1`. -/
def pyRFind (s : List Char) (c : Char) : Option Nat :=
  (pyFindAux c s.reverse).map (fun i => s.length - 1 - i)

/-- Model of `BaseAgent._parse_json_response` (base.py lines 83-99): slice from the
first `\x7b` to the last `\x7d` when `start >= 0 and end > start`, otherwise
feed the whole response to `json.loads`; `none` models the `ValueError`
re-raised on a `JSONDecodeError`. -/
def parse_json_response (response : List Char) : Option JsonVal :=
  match pyFind response '\x7b', pyRFind response '\x7d' with
  | some start, some e =>
    if start < e + 1 then jsonLoads ((response.drop start).take (e + 1 - start))
    else jsonLoads response
  | _, _ => jsonLoads response

/-- Extraction as worded by the spec (amended): everything from the first
opening brace through the last closing brace, or the entire string when no
such span exists. -/
def specFirstToLast (s : List Char) : List Char :=
  let fromFirst := s.dropWhile (fun c => !(c == '\x7b'))
  let span := (fromFirst.reverse.dropWhile (fun c => !(c == '\x7d'))).reverse
  if span = [] then s else span

/-- The parser as worded by the amended claim C5: parse the first-to-last
brace span, or the whole string. -/
def spec_parse_first_to_last (s : List Char) : Option JsonVal :=
  jsonLoads (specFirstToLast s)

/-- Scan for the closing brace matching an already-seen opening brace at
nesting depth `depth`, accumulating the span. -/
def balancedFrom : Nat → List Char → List Char → Option (List Char)
  | _, _, [] => none
  | depth, acc, c :: rest =>
    if c = '\x7b' then balancedFrom (depth + 1) (acc ++ [c]) rest
    else if c = '\x7d' then
      if depth ≤ 1 then some (acc ++ [c]) else balancedFrom (depth - 1) (acc ++ [c]) rest
    else balancedFrom depth (acc ++ [c]) rest

/-- The first balanced `\x7b ... \x7d` span of a string, as worded by the
original claim C5. -/
def firstBalancedSpan (s : List Char) : Option (List Char) :=
  match s.dropWhile (fun c => !(c == '\x7b')) with
  | [] => none
  | c :: rest => balancedFrom 1 [c] rest

/-- The parser as worded by the original claim C5: parse the first balanced
brace span, or the whole string when none exists. -/
def claim_parse_balanced (s : List Char) : Option JsonVal :=
  match firstBalancedSpan s with
  | some span => jsonLoads span
  | none => jsonLoads s

/-- The worked example of claim C5. -/
def c5Example : List Char :=
  "here you go \x7b\"message\":\"ok\",\"choice\":\"A\"\x7d thanks".data

/-- Input for the C5 counterexample: two top-level JSON objects embedded in
prose.  The first balanced span is `\x7b"a": 1\x7d`, while the code's
first-`\x7b`-to-last-`\x7d` slice spans both objects and is not valid JSON. -/
def c5CexInput : List Char :=
  "x \x7b\"a\": 1\x7d y \x7b\"b\": 2\x7d".data

/-- Parsed payload of a round-1 `generate_response` call, after the
`parsed.get('message', '')` / `parsed.get('choice', '')` defaults. -/
structure InitialPayload where
  message : String
  choice : String
deriving DecidableEq, Repr

/-- Parsed payload of a round-2 `ask_question` call, after the
`parsed.get('question', '')` / `parsed.get('target_agent', '')` defaults. -/
structure QuestionPayload where
  question : String
  target_agent : String
deriving DecidableEq, Repr

/-- Parsed payload of a `respond_to_question` call, after the
`parsed.get('answer', '')` / `parsed.get('choice', '')` defaults. -/
structure ResponsePayload where
  answer : String
  choice : String
deriving DecidableEq, Repr

/-- Parsed payload of a round-5 `final_opinion` call. -/
structure FinalPayload where
  message : String
  choice : String
deriving DecidableEq, Repr

/-- Parsed payload of the officer's `generate_decision` call.
`final_choice` and `summary` carry the `dict.get` defaults (`''`);
`confidence` is the result of `float(parsed.get('confidence', 0.5))`:
`some q` when the conversion yields `q` (a missing field yields `some 0.5`),
`none` when `float` raises on a non-numeric value.  `float` values are
modelled as rationals. -/
structure DecisionPayload where
  final_choice : String
  summary : String
  confidence : Option Rat
deriving DecidableEq, Repr

/-- A debate participant: the stable identity bound at construction
(`DebateAgent.__init__` copies `persona.id` / `persona.name`) together with
the outcome of each generation + parse pipeline the driver may invoke,
abstracted per call site as a function of the varying call inputs.  `none`
models the pipeline raising (exhausted retries, parse failure, or the
explicit `raise ValueError` on a missing required field). -/
structure DebateAgentSpec where
  agent_id : String
  agent_name : String
  r1 : Option InitialPayload
  r2 : List AgentMessage → Option QuestionPayload
  respond : AgentMessage → List AgentMessage → Nat → Option ResponsePayload
  r5 : List AgentMessage → Option FinalPayload

/-- The officer: outcomes of its per-target clarifying-question generations
and of its decision generation. -/
structure OfficerSpec where
  officerQ : AgentMessage → List AgentMessage → Option String
  decideOutcome : List AgentMessage → Option DecisionPayload

/-- Fallback text of `DebateAgent.generate_response` (base.py line 176). -/
def apologyInitial : String := "申し訳ありません、技術的な問題で意見を述べることができません。"

/-- Fallback text of `DebateAgent.respond_to_question` (base.py line 310). -/
def apologyResponse : String := "申し訳ありません、質問にお答えできません。"

/-- Fallback text of `DebateAgent.final_opinion` (base.py line 350). -/
def apologyFinal : String := "申し訳ありません、最終意見を述べることができません。"

/-- Model of `DebateAgent.generate_response` (base.py lines 138-180): on a successful
generation with a non-empty `message`, an `initial_opinion` message with the
parsed fields; on any raised exception (including the explicit raise on an
empty `message`), the apology fallback with `options[0] if options else None`
as choice.  The round number is 1 on both paths. -/
def generate_response (a : DebateAgentSpec) (options : List String)
    (g : Option InitialPayload) : AgentMessage :=
  match g with
  | some p =>
    if p.message = "" then
      create_agent_message a.agent_id a.agent_name apologyInitial options.head?
        .initial_opinion none 1
    else
      create_agent_message a.agent_id a.agent_name p.message (some p.choice)
        .initial_opinion none 1
  | none =>
    create_agent_message a.agent_id a.agent_name apologyInitial options.head?
      .initial_opinion none 1

/-- The `available_agents` comprehension of `DebateAgent.ask_question`
(base.py lines 257-258): ids of the other agents' round-1 initial opinions,
in `other_messages` order. -/
def eligiblePool (asker_id : String) (other_messages : List AgentMessage) :
    List String :=
  (other_messages.filter (fun m =>
    decide (m.agent_id ≠ asker_id ∧ m.message_type = .initial_opinion))).map
    (fun m => m.agent_id)

/-- The target-repair step of `ask_question` (base.py lines 255-261): the
parsed `target_agent` is replaced only when it is falsy (`''`) and
`other_messages` is non-empty and the eligible pool is non-empty, by the
first id of the pool; a non-empty `target_agent` is kept verbatim, whatever
it names. -/
def question_target (asker_id : String) (other_messages : List AgentMessage)
    (parsed_target : String) : String :=
  if parsed_target = "" ∧ other_messages ≠ [] then
    match eligiblePool asker_id other_messages with
    | [] => parsed_target
    | t :: _ => t
  else parsed_target

/-- Model of `DebateAgent.ask_question` (base.py lines 231-272): `none` when the
pipeline raises or the parsed `question` is empty (the raised `ValueError` is
caught and `None` returned); otherwise a round-`round_number` question
message carrying the possibly-repaired target. -/
def ask_question (a : DebateAgentSpec) (other_messages : List AgentMessage)
    (g : Option QuestionPayload) (round_number : Nat) : Option AgentMessage :=
  match g with
  | none => none
  | some p =>
    if p.question = "" then none
    else
      some (create_agent_message a.agent_id a.agent_name p.question none
        .question (some (question_target a.agent_id other_messages p.target_agent))
        round_number)

/-- Model of `DebateAgent.respond_to_question` (base.py lines 274-314): a `response`
message targeted back at the asker on both the success path and the apology
fallback path; the fallback carries no choice. -/
def respond_to_question (a : DebateAgentSpec) (question_message : AgentMessage)
    (g : Option ResponsePayload) (round_number : Nat) : AgentMessage :=
  match g with
  | some p =>
    if p.answer = "" then
      create_agent_message a.agent_id a.agent_name apologyResponse none
        .response (some question_message.agent_id) round_number
    else
      create_agent_message a.agent_id a.agent_name p.answer (some p.choice)
        .response (some question_message.agent_id) round_number
  | none =>
    create_agent_message a.agent_id a.agent_name apologyResponse none
      .response (some question_message.agent_id) round_number

/-- Model of `DebateAgent.final_opinion` (base.py lines 316-354): a `final_opinion`
message; the fallback carries `options[0] if options else None`. -/
def final_opinion (a : DebateAgentSpec) (options : List String)
    (g : Option FinalPayload) (round_number : Nat) : AgentMessage :=
  match g with
  | some p =>
    if p.message = "" then
      create_agent_message a.agent_id a.agent_name apologyFinal options.head?
        .final_opinion none round_number
    else
      create_agent_message a.agent_id a.agent_name p.message (some p.choice)
        .final_opinion none round_number
  | none =>
    create_agent_message a.agent_id a.agent_name apologyFinal options.head?
      .final_opinion none round_number

/-- Model of `OfficerAgent._generate_officer_question` (base.py lines 628-660): an
`officer_question` message (author `"officer"` / `"議長"`, round 4 hardcoded)
targeted at the author of `target_message`; `None` when the pipeline raises
or the parsed `question` is empty. -/
def generate_officer_question (target_message : AgentMessage)
    (g : Option String) : Option AgentMessage :=
  match g with
  | none => none
  | some q =>
    if q = "" then none
    else some (create_agent_message "officer" "議長" q none .officer_question
      (some target_message.agent_id) 4)

/-- Marker for the `agent_positions` filter of
`OfficerAgent.ask_clarifying_questions` (base.py line 615). -/
def positionType (m : AgentMessage) : Bool :=
  decide (m.message_type = .initial_opinion ∨ m.message_type = .response)

/-- The `agent_positions` dict of `ask_clarifying_questions` (base.py lines
613-616): one entry per agent id in first-appearance order, holding that
agent's LAST `initial_opinion`/`response` message. -/
def agent_positions (debate_messages : List AgentMessage) : List AgentMessage :=
  let elig := debate_messages.filter positionType
  (pyDictKeys (elig.map (fun m => m.agent_id))).filterMap
    (fun aid => (elig.filter (fun m => decide (m.agent_id = aid))).getLast?)

/-- Model of `OfficerAgent.ask_clarifying_questions` (base.py lines 602-626): one
generated question per position, dropping `None` results and positions whose
generation raised. -/
def ask_clarifying_questions (officer : OfficerSpec)
    (debate_messages : List AgentMessage) : List AgentMessage :=
  (agent_positions debate_messages).filterMap
    (fun msg => generate_officer_question msg (officer.officerQ msg debate_messages))

/-- The decision dict returned by `OfficerAgent.generate_decision`. -/
structure Decision where
  final_choice : String
  summary : String
  confidence : Rat
deriving DecidableEq, Repr

/-- Fallback summary of `generate_decision` (base.py line 536). -/
def fallback_summary : String := "技術的な問題により、簡単な集計に基づいて決定しました。"

/-- Model of `OfficerAgent.generate_decision` (base.py lines 496-538).  Success path:
keep the parsed `final_choice` only when it is truthy and a member of
`options`, otherwise substitute `_fallback_choice`; then `float(confidence)`
is evaluated — if it raises, the `except` branch returns the fallback dict
with confidence 0.3.  Failure path (`none`): the fallback dict.  The result
is `none` exactly when `_fallback_choice` itself raises on `max` of an empty
dict (only possible for `options = []`), which propagates out of the
`except` branch. -/
def generate_decision (options : List String)
    (debate_messages : List AgentMessage) (g : Option DecisionPayload) :
    Option Decision :=
  match g with
  | none =>
    (fallback_choice options debate_messages).map
      (fun c => ⟨c, fallback_summary, (3 : Rat) / 10⟩)
  | some p =>
    match (if p.final_choice = "" ∨ p.final_choice ∉ options then
        fallback_choice options debate_messages
      else some p.final_choice) with
    | none => none
    | some c =>
      match p.confidence with
      | some conf => some ⟨c, p.summary, conf⟩
      | none =>
        (fallback_choice options debate_messages).map
          (fun c2 => ⟨c2, fallback_summary, (3 : Rat) / 10⟩)

/-- Final session state of one `run_debate_process` task, with the transcript
kept as the append-ordered trace of `(current_round at append, message)`
pairs (`debates[debate_id].messages` is the second projection). -/
structure RunState where
  status : Status
  trace : List (Nat × AgentMessage)
  current_round : Nat
  final_choice : Option String
  summary : Option String
  confidence : Option Rat

/-- The transcript `debates[debate_id].messages`. -/
def RunState.messages (st : RunState) : List AgentMessage :=
  st.trace.map (fun p => p.2)

/-- Tag a round's appended messages with the `current_round` value set by
`emit_round_start` for that round. -/
def tagRound (k : Nat) (l : List AgentMessage) : List (Nat × AgentMessage) :=
  l.map (fun m => (k, m))

/-- Round 1 fan-out (debate.py lines 172-178): one `generate_response` per
agent, gathered in task order; no result is an exception or `None`, so
`process_round_messages` appends them all. -/
def round1Messages (options : List String) (agents : List DebateAgentSpec) :
    List AgentMessage :=
  agents.map (fun a => generate_response a options a.r1)

/-- Round 2 fan-out (debate.py lines 183-189): one `ask_question` per agent
over the round-1 valid messages; `None` results are dropped by
`process_round_messages`. -/
def round2Messages (agents : List DebateAgentSpec)
    (valid_initial : List AgentMessage) : List AgentMessage :=
  (agents.map (fun a => ask_question a valid_initial (a.r2 valid_initial) 2)).filterMap id

/-- The response fan-out of rounds 3 and 4 (debate.py lines 198-221 and
234-245): for each question bearing a truthy `target_agent`, find the first
agent with that id and have it respond; questions with a falsy or unknown
target produce no response task; `responseFor` is the body run for one
question. -/
def responseFor (agents : List DebateAgentSpec) (all_messages : List AgentMessage)
    (round_number : Nat) (q : AgentMessage) : Option AgentMessage :=
  match q.target_agent with
  | none => none
  | some tid =>
    if tid = "" then none
    else
      match agents.find? (fun a => decide (a.agent_id = tid)) with
      | some t =>
        some (respond_to_question t q (t.respond q all_messages round_number)
          round_number)
      | none => none

/-- See `questionResponses`. -/
def questionResponses (agents : List DebateAgentSpec)
    (questions all_messages : List AgentMessage) (round_number : Nat) :
    List AgentMessage :=
  questions.filterMap (responseFor agents all_messages round_number)

/-- Round 5 fan-out (debate.py lines 250-257): one `final_opinion` per agent
over the accumulated `all_messages`. -/
def round5Messages (options : List String) (agents : List DebateAgentSpec)
    (all_messages : List AgentMessage) : List AgentMessage :=
  agents.map (fun a => final_opinion a options (a.r5 all_messages) 5)

/-- Round-1 messages of the run (`valid_initial`). -/
def debateM1 (options : List String) (agents : List DebateAgentSpec) :
    List AgentMessage :=
  round1Messages options agents

/-- Round-2 question messages of the run (`valid_questions`). -/
def debateM2 (options : List String) (agents : List DebateAgentSpec) :
    List AgentMessage :=
  round2Messages agents (debateM1 options agents)

/-- The list `all_messages` after round 2 (`valid_initial + valid_questions`). -/
def debateAll1 (options : List String) (agents : List DebateAgentSpec) :
    List AgentMessage :=
  debateM1 options agents ++ debateM2 options agents

/-- Round-3 response messages of the run (`valid_responses`). -/
def debateM3 (options : List String) (agents : List DebateAgentSpec) :
    List AgentMessage :=
  questionResponses agents (debateM2 options agents) (debateAll1 options agents) 3

/-- The list `all_messages` after round 3. -/
def debateAll2 (options : List String) (agents : List DebateAgentSpec) :
    List AgentMessage :=
  debateAll1 options agents ++ debateM3 options agents

/-- The officer questions of round 4 (`officer_questions`). -/
def debateOQ (options : List String) (agents : List DebateAgentSpec)
    (officer : OfficerSpec) : List AgentMessage :=
  ask_clarifying_questions officer (debateAll2 options agents)

/-- The responses to officer questions (`valid_officer_responses`); computed
only when `officer_questions` is non-empty (debate.py line 230). -/
def debateM4 (options : List String) (agents : List DebateAgentSpec)
    (officer : OfficerSpec) : List AgentMessage :=
  if debateOQ options agents officer = [] then []
  else questionResponses agents (debateOQ options agents officer)
    (debateAll2 options agents) 4

/-- The list `all_messages` after round 4 (officer questions themselves are NOT added
to `all_messages`, only their responses are). -/
def debateAll3 (options : List String) (agents : List DebateAgentSpec)
    (officer : OfficerSpec) : List AgentMessage :=
  debateAll2 options agents ++ debateM4 options agents officer

/-- Round-5 final-opinion messages of the run (`valid_finals`). -/
def debateM5 (options : List String) (agents : List DebateAgentSpec)
    (officer : OfficerSpec) : List AgentMessage :=
  round5Messages options agents (debateAll3 options agents officer)

/-- The list `all_messages` handed to `generate_decision` in round 6. -/
def debateAll4 (options : List String) (agents : List DebateAgentSpec)
    (officer : OfficerSpec) : List AgentMessage :=
  debateAll3 options agents officer ++ debateM5 options agents officer

/-- The append-ordered transcript trace of the run: round-`k` messages are
appended while `current_round = k` (set by `emit_round_start(k)` immediately
before each round's `process_round_messages`); in round 4 the officer
questions are appended first, then their responses. -/
def debateTrace (options : List String) (agents : List DebateAgentSpec)
    (officer : OfficerSpec) : List (Nat × AgentMessage) :=
  tagRound 1 (debateM1 options agents) ++
    (tagRound 2 (debateM2 options agents) ++
      (tagRound 3 (debateM3 options agents) ++
        (tagRound 4 (debateOQ options agents officer) ++
          (tagRound 4 (debateM4 options agents officer) ++
            tagRound 5 (debateM5 options agents officer)))))

/-- Model of `run_debate_process` (debate.py lines 67-294), for a session that reaches
the agent-construction step (web search disabled; persona loading and agent
construction abstracted into the `agents` roster).  An empty roster raises
`ValueError("No debate agents available")` before round 1, caught by the
outer handler: status `failed`, nothing appended, `current_round` still at
its default 1.  Otherwise rounds 1-6 run; the only other uncaught exception
point is `generate_decision` (possible only for `options = []`), reached
after `emit_round_start(6)`; on success the session is completed with the
decision fields copied into the result. -/
def run_debate_process (options : List String) (agents : List DebateAgentSpec)
    (officer : OfficerSpec) : RunState :=
  match agents with
  | [] => ⟨.failed, [], 1, none, none, none⟩
  | _ :: _ =>
    match generate_decision options (debateAll4 options agents officer)
        (officer.decideOutcome (debateAll4 options agents officer)) with
    | some d =>
      ⟨.completed, debateTrace options agents officer, 6, some d.final_choice,
        some d.summary, some d.confidence⟩
    | none => ⟨.failed, debateTrace options agents officer, 6, none, none, none⟩

/-- Roster member whose every generation call fails (all retries exhausted on
every call site). -/
def allFailAgent : DebateAgentSpec :=
  ⟨"a1", "Agent1", none, fun _ => none, fun _ _ _ => none, fun _ => none⟩

/-- Officer whose every generation call fails. -/
def allFailOfficer : OfficerSpec := ⟨fun _ _ => none, fun _ => none⟩

/-- Officer for the C8 counterexample: the decision generation succeeds with
a well-formed payload whose confidence is 2.0, outside [0, 1]. -/
def c8CexOfficer : OfficerSpec :=
  ⟨fun _ _ => none, fun _ => some ⟨"A", "自信満々です", some 2⟩⟩

/-- Agent whose calls all succeed, used by the C1 and C2 witnesses. -/
def okAgent : DebateAgentSpec :=
  ⟨"b1", "Agent B1",
    some ⟨"initial opinion", "Y"⟩,
    fun _ => some ⟨"a question", "b2"⟩,
    fun _ _ _ => some ⟨"an answer", "Y"⟩,
    fun _ => some ⟨"final opinion", "Y"⟩⟩

/-- Officer whose decision generation yields an invalid choice, used by the
C1 witness to exercise the in-options guarantee through the fallback. -/
def c1WitnessOfficer : OfficerSpec :=
  ⟨fun _ _ => some "could you clarify?", fun _ => some ⟨"Z", "summary", some (4 / 5)⟩⟩

/-- Asker used by the C6 and C7 theorems about question targeting. -/
def askerAgent : DebateAgentSpec :=
  ⟨"a1", "Agent1", none, fun _ => none, fun _ _ _ => none, fun _ => none⟩

/-- Round-1 transcript seen by the C6 counterexample asker: initial opinions
of the asker itself and of one other agent. -/
def c6CexMessages : List AgentMessage :=
  [create_agent_message "a1" "Agent1" "op1" (some "A") .initial_opinion none 1,
   create_agent_message "a2" "Agent2" "op2" (some "B") .initial_opinion none 1]

/-- The round-2 question message the code produces in the C6 counterexample:
the generated payload names the asker itself and is kept verbatim. -/
def c6CexQuestion : AgentMessage :=
  create_agent_message "a1" "Agent1" "どうして?" none .question (some "a1") 2

/-- Round-1 transcript for the C7 theorems: one other agent produced an
initial opinion, so the eligible pool is `["a2"]`. -/
def c7Messages : List AgentMessage :=
  [create_agent_message "a2" "Agent2" "op2" (some "B") .initial_opinion none 1]

/-- The question message the code produces in the C7 counterexample: the
invalid (unknown) non-empty target `"zzz"` is kept, not replaced. -/
def c7CexQuestion : AgentMessage :=
  create_agent_message "a1" "Agent1" "なぜ?" none .question (some "zzz") 2

/-- The question message produced for the C6 witness: an empty generated
target repaired to the first eligible agent `"a2"`. -/
def c6WitnessQuestion : AgentMessage :=
  create_agent_message "a1" "Agent1" "質問" none .question (some "a2") 2

/-- The question message produced for the C7 witness. -/
def c7WitnessQuestion : AgentMessage :=
  create_agent_message "a1" "Agent1" "質問です" none .question (some "a2") 2

/-- Whether attempt `j` of the retry loop fails (provider raises, or the
output is empty/whitespace-only). -/
def attemptFailed (provider : Nat → Except String String) (j : Nat) : Bool :=
  match attemptOutcome provider j with
  | .ok _ => false
  | .error _ => true


theorem pyDictKeys_mem (l : List String) (k : String) :
    k ∈ pyDictKeys l ↔ k ∈ l := by
  induction l with
  | nil => simp [pyDictKeys]
  | cons o rest ih =>
    simp only [pyDictKeys, List.mem_cons, List.mem_filter, ih, decide_eq_true_eq]
    by_cases h : k = o
    · simp [h]
    · simp [h]

theorem firstArgmax_eq_none (f : String → Nat) (l : List String) :
    firstArgmax f l = none ↔ l = [] := by
  cases l with
  | nil => simp [firstArgmax]
  | cons o rest =>
    rcases hfa : firstArgmax f rest with _ | b
    · simp [firstArgmax, hfa]
    · by_cases h : f o < f b <;> simp [firstArgmax, hfa, h]

theorem pyMaxGo_map (f : String → Nat) (l : List String) :
    ∀ best bestv, pyMaxGo best bestv (l.map (fun o => (o, f o))) =
      match firstArgmax f l with
      | none => best
      | some m => if bestv < f m then m else best := by
  induction l with
  | nil => intro best bestv; rfl
  | cons o rest ih =>
    intro best bestv
    have hstep : pyMaxGo best bestv ((o :: rest).map (fun o => (o, f o))) =
        if bestv < f o then pyMaxGo o (f o) (rest.map (fun o => (o, f o)))
        else pyMaxGo best bestv (rest.map (fun o => (o, f o))) := rfl
    rw [hstep, ih, ih]
    rcases hfa : firstArgmax f rest with _ | m
    · have hco : firstArgmax f (o :: rest) = some o := by simp [firstArgmax, hfa]
      by_cases h2 : bestv < f o <;> simp [hco, h2]
    · have hco : firstArgmax f (o :: rest) = if f o < f m then some m else some o := by
        simp [firstArgmax, hfa]
      by_cases h1 : f o < f m
      · by_cases h2 : bestv < f o
        · have h3 : bestv < f m := lt_trans h2 h1
          simp [hco, h1, h2, h3]
        · simp [hco, h1, h2]
      · by_cases h2 : bestv < f o
        · simp [hco, h1, h2]
        · have h3 : ¬ bestv < f m := by omega
          simp [hco, h1, h2, h3]

theorem pyMaxByValue_map (f : String → Nat) (l : List String) :
    pyMaxByValue (l.map (fun o => (o, f o))) = firstArgmax f l := by
  cases l with
  | nil => rfl
  | cons o rest =>
    have hstep : pyMaxByValue ((o :: rest).map (fun o => (o, f o))) =
        some (pyMaxGo o (f o) (rest.map (fun o => (o, f o)))) := rfl
    rw [hstep, pyMaxGo_map]
    rcases hfa : firstArgmax f rest with _ | m
    · simp [firstArgmax, hfa]
    · by_cases h1 : f o < f m <;> simp [firstArgmax, hfa, h1]

theorem fallback_choice_eq_firstArgmax (options : List String)
    (msgs : List AgentMessage) :
    fallback_choice options msgs = firstArgmax (choiceCount msgs) (pyDictKeys options) := by
  unfold fallback_choice choice_counts
  exact pyMaxByValue_map _ _

theorem firstArgmax_spec (f : String → Nat) : ∀ (l : List String) (c : String),
    firstArgmax f l = some c → c ∈ l ∧ ∀ o ∈ l, f o ≤ f c := by
  intro l
  induction l with
  | nil => intro c h; simp [firstArgmax] at h
  | cons o rest ih =>
    intro c h
    rcases hfa : firstArgmax f rest with _ | b
    · have hco : firstArgmax f (o :: rest) = some o := by simp [firstArgmax, hfa]
      rw [hco] at h
      obtain rfl : o = c := by injection h
      have hrest : rest = [] := (firstArgmax_eq_none f rest).mp hfa
      subst hrest
      refine ⟨by simp, ?_⟩
      intro x hx
      simp only [List.mem_singleton] at hx
      subst hx
      exact le_refl _
    · have hco : firstArgmax f (o :: rest) = if f o < f b then some b else some o := by
        simp [firstArgmax, hfa]
      rw [hco] at h
      obtain ⟨hb, hmax⟩ := ih b hfa
      by_cases hlt : f o < f b
      · rw [if_pos hlt] at h
        obtain rfl : b = c := by injection h
        refine ⟨List.mem_cons_of_mem _ hb, ?_⟩
        intro x hx
        rcases List.mem_cons.mp hx with rfl | hx
        · exact le_of_lt hlt
        · exact hmax x hx
      · rw [if_neg hlt] at h
        obtain rfl : o = c := by injection h
        refine ⟨List.mem_cons_self _ _, ?_⟩
        intro x hx
        rcases List.mem_cons.mp hx with rfl | hx
        · exact le_refl _
        · exact le_trans (hmax x hx) (not_lt.mp hlt)

theorem pyMaxGo_all_le : ∀ (l : List (String × Nat)) (best : String) (bestv : Nat),
    (∀ p ∈ l, p.2 ≤ bestv) → pyMaxGo best bestv l = best := by
  intro l
  induction l with
  | nil => intro best bestv _; rfl
  | cons p rest ih =>
    intro best bestv h
    have hp : p.2 ≤ bestv := h p (List.mem_cons_self _ _)
    have hstep : pyMaxGo best bestv (p :: rest) =
        if bestv < p.2 then pyMaxGo p.1 p.2 rest else pyMaxGo best bestv rest := rfl
    rw [hstep, if_neg (not_lt.mpr hp)]
    exact ih best bestv (fun q hq => h q (List.mem_cons_of_mem _ hq))

theorem fallback_choice_mem (options : List String) (msgs : List AgentMessage)
    (c : String) (h : fallback_choice options msgs = some c) : c ∈ options := by
  rw [fallback_choice_eq_firstArgmax] at h
  exact (pyDictKeys_mem options c).mp (firstArgmax_spec _ _ _ h).1

theorem fallback_choice_isSome (options : List String) (msgs : List AgentMessage)
    (h : options ≠ []) : ∃ c, fallback_choice options msgs = some c := by
  rw [fallback_choice_eq_firstArgmax]
  cases hk : pyDictKeys options with
  | nil =>
    cases options with
    | nil => exact absurd rfl h
    | cons o r => simp [pyDictKeys] at hk
  | cons k rest =>
    rcases hfa : firstArgmax (choiceCount msgs) rest with _ | b
    · exact ⟨k, by simp [firstArgmax, hfa]⟩
    · by_cases hlt : choiceCount msgs k < choiceCount msgs b
      · exact ⟨b, by simp [firstArgmax, hfa, hlt]⟩
      · exact ⟨k, by simp [firstArgmax, hfa, hlt]⟩

theorem generate_decision_spec (options : List String) (msgs : List AgentMessage)
    (g : Option DecisionPayload) (h : options ≠ []) :
    ∃ d, generate_decision options msgs g = some d ∧ d.final_choice ∈ options := by
  obtain ⟨c, hc⟩ := fallback_choice_isSome options msgs h
  have hcmem := fallback_choice_mem options msgs c hc
  cases g with
  | none =>
    exact ⟨⟨c, fallback_summary, (3 : Rat) / 10⟩, by simp [generate_decision, hc], hcmem⟩
  | some p =>
    by_cases hfc : p.final_choice = "" ∨ p.final_choice ∉ options
    · cases hconf : p.confidence with
      | some conf =>
        exact ⟨⟨c, p.summary, conf⟩, by simp [generate_decision, hfc, hc, hconf], hcmem⟩
      | none =>
        exact ⟨⟨c, fallback_summary, (3 : Rat) / 10⟩,
          by simp [generate_decision, hfc, hc, hconf], hcmem⟩
    · have hfc2 := hfc
      push_neg at hfc2
      cases hconf : p.confidence with
      | some conf =>
        exact ⟨⟨p.final_choice, p.summary, conf⟩,
          by simp [generate_decision, hfc, hconf], hfc2.2⟩
      | none =>
        exact ⟨⟨c, fallback_summary, (3 : Rat) / 10⟩,
          by simp [generate_decision, hfc, hc, hconf], hcmem⟩

theorem generate_decision_confidence_cases (options : List String)
    (msgs : List AgentMessage) (g : Option DecisionPayload) (d : Decision)
    (h : generate_decision options msgs g = some d) :
    d.confidence = 3 / 10 ∨
      ∃ p q, g = some p ∧ p.confidence = some q ∧ d.confidence = q := by
  cases g with
  | none =>
    left
    simp only [generate_decision] at h
    cases hc : fallback_choice options msgs with
    | none => rw [hc] at h; simp at h
    | some c =>
      rw [hc] at h
      simp only [Option.map_some'] at h
      injection h with h
      rw [← h]
  | some p =>
    by_cases hfc : p.final_choice = "" ∨ p.final_choice ∉ options
    · cases hconf : p.confidence with
      | some conf =>
        right
        refine ⟨p, conf, rfl, hconf, ?_⟩
        cases hc : fallback_choice options msgs with
        | none => simp [generate_decision, hfc, hc, hconf] at h
        | some c =>
          simp only [generate_decision, if_pos hfc, hc, hconf] at h
          injection h with h
          rw [← h]
      | none =>
        left
        cases hc : fallback_choice options msgs with
        | none => simp [generate_decision, hfc, hc, hconf] at h
        | some c =>
          simp only [generate_decision, if_pos hfc, hc, hconf, Option.map_some'] at h
          injection h with h
          rw [← h]
    · cases hconf : p.confidence with
      | some conf =>
        right
        refine ⟨p, conf, rfl, hconf, ?_⟩
        simp only [generate_decision, if_neg hfc, hconf] at h
        injection h with h
        rw [← h]
      | none =>
        left
        cases hc : fallback_choice options msgs with
        | none => simp [generate_decision, hfc, hc, hconf] at h
        | some c =>
          simp only [generate_decision, if_neg hfc, hc, hconf, Option.map_some'] at h
          injection h with h
          rw [← h]

/-- C3 counterexample: with options `["", "B"]` and transcript choices
`["", "", "B"]`, the claim's tally (key set = members of options, every
member choice counted) selects `""` (count 2), but the code's
`_fallback_choice` never counts a falsy choice, so it returns `"B"`
(count 1): the claim as stated is false at this input. -/
theorem c3_counterexample_empty_string_option :
    fallback_choice ["", "B"] c3CexMessages = some "B" ∧
    claim_fallback_choice ["", "B"] c3CexMessages = some "" ∧
    claimTallyCount c3CexMessages "" = 2 ∧
    claimTallyCount c3CexMessages "B" = 1 := by
  refine ⟨?_, ?_, ?_, ?_⟩ <;> decide

/-- C3 amended: the fallback tally counts, for each distinct option (key set
in options order), the messages whose TRUTHY (non-`None`, non-empty) choice
equals it, and returns the first option attaining the maximal count (first
maximizer in options order); in particular any returned option is a member of
`options` maximizing the count, and for choices `[A, B, A, C]` with options
`[A, B, C]` it returns `A`. -/
theorem c3_amended_fallback_tally :
    (∀ options msgs, fallback_choice options msgs =
      firstArgmax (choiceCount msgs) (pyDictKeys options)) ∧
    (∀ options msgs c, fallback_choice options msgs = some c →
      c ∈ options ∧ ∀ o ∈ options, choiceCount msgs o ≤ choiceCount msgs c) ∧
    fallback_choice ["A", "B", "C"] c3AbacMessages = some "A" := by
  refine ⟨fallback_choice_eq_firstArgmax, ?_, by decide⟩
  intro options msgs c h
  refine ⟨fallback_choice_mem options msgs c h, ?_⟩
  intro o ho
  rw [fallback_choice_eq_firstArgmax] at h
  exact (firstArgmax_spec _ _ _ h).2 o ((pyDictKeys_mem options o).mpr ho)

/-- C3 witness: the amended maximality statement instantiated on the
`[A, B, A, C]` transcript. -/
theorem c3_amended_fallback_tally_witness :
    "A" ∈ ["A", "B", "C"] ∧
    ∀ o ∈ ["A", "B", "C"],
      choiceCount c3AbacMessages o ≤ choiceCount c3AbacMessages "A" :=
  c3_amended_fallback_tally.2.1 ["A", "B", "C"] c3AbacMessages "A" (by decide)

/-- C10: when no transcript message carries a choice that is a member of the
non-empty options list (in particular for an empty transcript), every tally
entry stays 0 and `_fallback_choice` returns the first option. -/
theorem c10_zero_tally_first_option (options : List String)
    (msgs : List AgentMessage) (h1 : options ≠ [])
    (h2 : ∀ m ∈ msgs, ∀ c ∈ m.choice, c ∉ options) :
    fallback_choice options msgs = options.head? := by
  cases options with
  | nil => exact absurd rfl h1
  | cons o rest =>
    have hz : ∀ k ∈ pyDictKeys (o :: rest), choiceCount msgs k = 0 := by
      intro k hk
      have hkopt : k ∈ o :: rest := (pyDictKeys_mem _ _).mp hk
      unfold choiceCount
      by_cases hke : k = ""
      · simp [hke]
      · rw [if_neg hke, List.length_eq_zero, List.filter_eq_nil_iff]
        intro m hm
        simp only [decide_eq_true_eq]
        intro hchoice
        exact absurd hkopt (h2 m hm k (Option.mem_def.mpr hchoice))
    have hkeys : pyDictKeys (o :: rest) =
        o :: (pyDictKeys rest).filter (fun k => decide (k ≠ o)) := rfl
    show pyMaxByValue (choice_counts (o :: rest) msgs) = some o
    have hcc : choice_counts (o :: rest) msgs =
        (o, choiceCount msgs o) ::
          ((pyDictKeys rest).filter (fun k => decide (k ≠ o))).map
            (fun k => (k, choiceCount msgs k)) := rfl
    rw [hcc]
    show some (pyMaxGo o (choiceCount msgs o) _) = some o
    congr 1
    apply pyMaxGo_all_le
    intro p hp
    obtain ⟨k, hk, rfl⟩ := List.mem_map.mp hp
    have hko : choiceCount msgs k = 0 :=
      hz k (by rw [hkeys]; exact List.mem_cons_of_mem _ hk)
    have hoo : choiceCount msgs o = 0 := hz o (by rw [hkeys]; exact List.mem_cons_self _ _)
    simp [hko, hoo]

/-- C10 witness: a single message choosing `"C"` outside options
`["A", "B"]` yields the first option `"A"`. -/
theorem c10_zero_tally_first_option_witness :
    fallback_choice ["A", "B"] [c10WitnessMessage] = (["A", "B"] : List String).head? :=
  c10_zero_tally_first_option ["A", "B"] [c10WitnessMessage] (by decide) (by decide)

theorem range_pow_shift (attempt k : Nat) :
    (List.range (k + 1)).map (fun j => 2 ^ (attempt + j)) =
      2 ^ attempt :: (List.range k).map (fun j => 2 ^ (attempt + 1 + j)) := by
  rw [List.range_succ_eq_map]
  simp only [List.map_cons, List.map_map, Nat.add_zero]
  congr 1
  apply List.map_congr_left
  intro j _
  simp only [Function.comp_apply]
  congr 1
  omega

theorem retryLoop_succ_ok (provider : Nat → Except String String)
    (fuel attempt : Nat) (last r : String)
    (h : attemptOutcome provider attempt = .ok r) :
    retryLoop provider (Nat.succ fuel) attempt last = ⟨.ok r, [], 1⟩ := by
  unfold retryLoop
  rw [h]

theorem retryLoop_one_err (provider : Nat → Except String String)
    (attempt : Nat) (last e : String)
    (h : attemptOutcome provider attempt = .error e) :
    retryLoop provider 1 attempt last = ⟨.error e, [], 1⟩ := by
  unfold retryLoop
  rw [h]

theorem retryLoop_succ_err (provider : Nat → Except String String)
    (f2 attempt : Nat) (last e : String)
    (h : attemptOutcome provider attempt = .error e) :
    retryLoop provider (Nat.succ (Nat.succ f2)) attempt last =
      ⟨(retryLoop provider (Nat.succ f2) (attempt + 1) e).result,
        2 ^ attempt :: (retryLoop provider (Nat.succ f2) (attempt + 1) e).delays,
        (retryLoop provider (Nat.succ f2) (attempt + 1) e).calls + 1⟩ := by
  conv_lhs => rw [retryLoop]
  rw [h]

theorem retryLoop_calls_le (provider : Nat → Except String String) :
    ∀ (fuel attempt : Nat) (last : String),
      (retryLoop provider fuel attempt last).calls ≤ fuel := by
  intro fuel
  induction fuel with
  | zero => intro attempt last; exact Nat.le_refl 0
  | succ f ih =>
    intro attempt last
    cases h : attemptOutcome provider attempt with
    | ok r =>
      rw [retryLoop_succ_ok provider f attempt last r h]
      exact Nat.succ_le_succ (Nat.zero_le f)
    | error e =>
      cases f with
      | zero =>
        rw [retryLoop_one_err provider attempt last e h]
      | succ f2 =>
        have hrec := ih (attempt + 1) e
        rw [retryLoop_succ_err provider f2 attempt last e h]
        show (retryLoop provider (Nat.succ f2) (attempt + 1) e).calls + 1 ≤
          Nat.succ (Nat.succ f2)
        simp only [Nat.succ_eq_add_one] at hrec ⊢
        omega

theorem retryLoop_success (provider : Nat → Except String String) :
    ∀ (k fuel attempt : Nat) (last v : String), k < fuel →
    (∀ j, j < k → attemptFailed provider (attempt + j) = true) →
    attemptOutcome provider (attempt + k) = .ok v →
    retryLoop provider fuel attempt last =
      ⟨.ok v, (List.range k).map (fun j => 2 ^ (attempt + j)), k + 1⟩ := by
  intro k
  induction k with
  | zero =>
    intro fuel attempt last v hk hfail hok
    cases fuel with
    | zero => omega
    | succ f =>
      rw [Nat.add_zero] at hok
      rw [retryLoop_succ_ok provider f attempt last v hok]
      rfl
  | succ k ih =>
    intro fuel attempt last v hk hfail hok
    cases fuel with
    | zero => omega
    | succ f =>
      have h0 : attemptFailed provider (attempt + 0) = true := hfail 0 (Nat.succ_pos k)
      rw [Nat.add_zero] at h0
      cases he : attemptOutcome provider attempt with
      | ok r => unfold attemptFailed at h0; rw [he] at h0; simp at h0
      | error e =>
        cases f with
        | zero => omega
        | succ f2 =>
          have hrec := ih (Nat.succ f2) (attempt + 1) e v (by omega)
            (fun j hj => by
              have hh := hfail (j + 1) (by omega)
              have heq : attempt + (j + 1) = attempt + 1 + j := by omega
              rwa [heq] at hh)
            (by
              have heq : attempt + 1 + k = attempt + (k + 1) := by omega
              rw [heq]
              exact hok)
          rw [retryLoop_succ_err provider f2 attempt last e he, hrec]
          show (⟨.ok v, 2 ^ attempt :: (List.range k).map (fun j => 2 ^ (attempt + 1 + j)),
            (k + 1) + 1⟩ : RetryResult) = _
          rw [range_pow_shift]

theorem retryLoop_all_fail (provider : Nat → Except String String) :
    ∀ (fuel attempt : Nat) (last e : String), 0 < fuel →
    (∀ j, j < fuel → attemptFailed provider (attempt + j) = true) →
    attemptOutcome provider (attempt + (fuel - 1)) = .error e →
    retryLoop provider fuel attempt last =
      ⟨.error e, (List.range (fuel - 1)).map (fun j => 2 ^ (attempt + j)), fuel⟩ := by
  intro fuel
  induction fuel with
  | zero => intro attempt last e h; omega
  | succ f ih =>
    intro attempt last e _ hfail hlast
    cases f with
    | zero =>
      have heq : attempt + (1 - 1) = attempt := by omega
      rw [heq] at hlast
      rw [retryLoop_one_err provider attempt last e hlast]
      rfl
    | succ f2 =>
      have h0 : attemptFailed provider (attempt + 0) = true := hfail 0 (by omega)
      rw [Nat.add_zero] at h0
      cases he : attemptOutcome provider attempt with
      | ok r => unfold attemptFailed at h0; rw [he] at h0; simp at h0
      | error e0 =>
        have hrec := ih (attempt + 1) e0 e (by omega)
          (fun j hj => by
            have hh := hfail (j + 1) (by omega)
            have heq : attempt + (j + 1) = attempt + 1 + j := by omega
            rwa [heq] at hh)
          (by
            have heq : attempt + 1 + (Nat.succ f2 - 1) =
                attempt + (Nat.succ (Nat.succ f2) - 1) := by omega
            rw [heq]
            exact hlast)
        rw [retryLoop_succ_err provider f2 attempt last e0 he, hrec]
        show (⟨.error e,
          2 ^ attempt :: (List.range (Nat.succ f2 - 1)).map (fun j => 2 ^ (attempt + 1 + j)),
          Nat.succ f2 + 1⟩ : RetryResult) = _
        have hs1 : Nat.succ f2 - 1 = f2 := rfl
        have hs2 : Nat.succ (Nat.succ f2) - 1 = f2 + 1 := rfl
        simp only [Nat.succ_eq_add_one] at hs1 hs2 ⊢
        rw [hs1, hs2, range_pow_shift]

/-- C4: the retry wrapper makes at most `max_retries` provider calls; an
output that strips to the empty string fails its attempt with the empty-
response error; if attempts `0..k-1` fail and attempt `k` succeeds with `v`
(`k < max_retries`), the caller receives `v` after exactly the delays
`2^0, ..., 2^(k-1)` (so exactly `k` inter-attempt delays, e.g. 2 delays when
the third attempt succeeds) and `k+1` calls; if all `max_retries` attempts
fail, the error of the last attempt is raised after the same delay sequence
cut at `max_retries - 1`. -/
theorem c4_retry_backoff (provider : Nat → Except String String) (max_retries : Nat) :
    (generate_with_retry provider max_retries).calls ≤ max_retries ∧
    (∀ j s, provider j = .ok s → pyStrip s = "" →
      attemptOutcome provider j = .error "Empty response from AI provider") ∧
    (∀ k v, k < max_retries →
      (∀ j, j < k → attemptFailed provider j = true) →
      attemptOutcome provider k = .ok v →
      generate_with_retry provider max_retries =
        ⟨.ok v, (List.range k).map (fun j => 2 ^ j), k + 1⟩) ∧
    (∀ e, 0 < max_retries →
      (∀ j, j < max_retries → attemptFailed provider j = true) →
      attemptOutcome provider (max_retries - 1) = .error e →
      generate_with_retry provider max_retries =
        ⟨.error e, (List.range (max_retries - 1)).map (fun j => 2 ^ j), max_retries⟩) := by
  refine ⟨retryLoop_calls_le provider max_retries 0 _, ?_, ?_, ?_⟩
  · intro j s hok hstrip
    unfold attemptOutcome
    rw [hok]
    show (if s ≠ "" ∧ pyStrip s ≠ "" then Except.ok s
      else Except.error "Empty response from AI provider") = _
    rw [if_neg]
    intro hcon
    exact hcon.2 hstrip
  · intro k v hk hfail hok
    have h := retryLoop_success provider k max_retries 0 "NoneType: None" v hk
      (fun j hj => by simpa using hfail j hj) (by simpa using hok)
    unfold generate_with_retry
    rw [h]
    simp
  · intro e hpos hfail hlast
    have h := retryLoop_all_fail provider max_retries 0 "NoneType: None" e hpos
      (fun j hj => by simpa using hfail j hj) (by simpa using hlast)
    unfold generate_with_retry
    rw [h]
    simp

/-- C4 witness: a provider failing on attempt 0, returning whitespace on
attempt 1 and succeeding on attempt 2 yields the success value with exactly
the two delays `[2^0, 2^1]` and 3 calls; an always-failing provider raises
the error of its final attempt after the same delays. -/
theorem c4_retry_backoff_witness :
    generate_with_retry c4WitnessProvider 3 =
      ⟨.ok "a fine answer", [1, 2], 3⟩ ∧
    generate_with_retry c4FailProvider 3 = ⟨.error "quota", [1, 2], 3⟩ := by
  constructor
  · have h := (c4_retry_backoff c4WitnessProvider 3).2.2.1 2 "a fine answer"
      (by decide) (by decide) (by rfl)
    rw [h]
    rfl
  · have h := (c4_retry_backoff c4FailProvider 3).2.2.2 "quota"
      (by decide) (by decide) (by rfl)
    rw [h]
    rfl

theorem pyFindAux_none_forall (c : Char) :
    ∀ l, pyFindAux c l = none → ∀ x ∈ l, x ≠ c := by
  intro l
  induction l with
  | nil => intro _ x hx; simp at hx
  | cons y ys ih =>
    intro h x hx
    by_cases hy : y = c
    · simp [pyFindAux, hy] at h
    · simp only [pyFindAux, if_neg hy, Option.map_eq_none'] at h
      rcases List.mem_cons.mp hx with rfl | hx
      · exact hy
      · exact ih h x hx

theorem pyFindAux_none_dropWhile (c : Char) :
    ∀ l, pyFindAux c l = none → l.dropWhile (fun x => !(x == c)) = [] := by
  intro l h
  rw [List.dropWhile_eq_nil_iff]
  intro x hx
  simp only [Bool.not_eq_true', beq_eq_false_iff_ne, ne_eq]
  exact pyFindAux_none_forall c l h x hx

theorem pyFindAux_some_lt (c : Char) :
    ∀ l i, pyFindAux c l = some i → i < l.length := by
  intro l
  induction l with
  | nil => intro i h; simp [pyFindAux] at h
  | cons y ys ih =>
    intro i h
    by_cases hy : y = c
    · simp only [pyFindAux, if_pos hy] at h
      injection h with h
      subst h
      simp
    · simp only [pyFindAux, if_neg hy, Option.map_eq_some'] at h
      obtain ⟨j, hj, rfl⟩ := h
      have := ih j hj
      simp
      omega

theorem pyFindAux_some_dropWhile (c : Char) :
    ∀ l i, pyFindAux c l = some i →
      l.dropWhile (fun x => !(x == c)) = l.drop i := by
  intro l
  induction l with
  | nil => intro i h; simp [pyFindAux] at h
  | cons y ys ih =>
    intro i h
    by_cases hy : y = c
    · simp only [pyFindAux, if_pos hy] at h
      injection h with h
      subst h
      rw [List.dropWhile_cons, if_neg]
      · rfl
      · simp [hy]
    · simp only [pyFindAux, if_neg hy, Option.map_eq_some'] at h
      obtain ⟨j, hj, rfl⟩ := h
      rw [List.dropWhile_cons, if_pos]
      · rw [ih j hj]
        rfl
      · simp [hy]

theorem pyFindAux_some_take_ne (c : Char) :
    ∀ l i, pyFindAux c l = some i → ∀ x ∈ l.take i, x ≠ c := by
  intro l
  induction l with
  | nil => intro i h; simp [pyFindAux] at h
  | cons y ys ih =>
    intro i h x hx
    by_cases hy : y = c
    · simp only [pyFindAux, if_pos hy] at h
      injection h with h
      subst h
      simp at hx
    · simp only [pyFindAux, if_neg hy, Option.map_eq_some'] at h
      obtain ⟨j, hj, rfl⟩ := h
      rw [List.take_succ_cons] at hx
      rcases List.mem_cons.mp hx with rfl | hx
      · exact hy
      · exact ih j hj x hx

theorem pyFindAux_some_take (c : Char) :
    ∀ l i n, pyFindAux c l = some i → i < n →
      pyFindAux c (l.take n) = some i := by
  intro l
  induction l with
  | nil => intro i n h; simp [pyFindAux] at h
  | cons y ys ih =>
    intro i n h hn
    by_cases hy : y = c
    · simp only [pyFindAux, if_pos hy] at h
      injection h with h
      subst h
      cases n with
      | zero => omega
      | succ n2 => simp [pyFindAux, hy]
    · simp only [pyFindAux, if_neg hy, Option.map_eq_some'] at h
      obtain ⟨j, hj, rfl⟩ := h
      cases n with
      | zero => omega
      | succ n2 =>
        rw [List.take_succ_cons]
        simp only [pyFindAux, if_neg hy, Option.map_eq_some']
        exact ⟨j, ih j n2 hj (by omega), rfl⟩

theorem parse_json_response_eq_first_to_last (s : List Char) :
    parse_json_response s = spec_parse_first_to_last s := by
  cases hf : pyFind s '\x7b' with
  | none =>
    have h1 : s.dropWhile (fun x => !(x == '\x7b')) = [] :=
      pyFindAux_none_dropWhile _ _ hf
    have hL : parse_json_response s = jsonLoads s := by
      unfold parse_json_response
      rw [hf]
    have hspan : (List.dropWhile (fun c => !(c == '\x7d'))
        (s.dropWhile (fun c => !(c == '\x7b'))).reverse).reverse = [] := by
      rw [h1]
      rfl
    have hR : spec_parse_first_to_last s = jsonLoads s := by
      unfold spec_parse_first_to_last specFirstToLast
      simp only [hspan, if_pos]
    rw [hL, hR]
  | some i =>
    have hff : s.dropWhile (fun x => !(x == '\x7b')) = s.drop i :=
      pyFindAux_some_dropWhile _ _ _ hf
    have hilt : i < s.length := pyFindAux_some_lt _ _ _ hf
    cases hr : pyRFind s '\x7d' with
    | none =>
      have hnone : pyFindAux '\x7d' s.reverse = none := by
        unfold pyRFind at hr
        cases hh : pyFindAux '\x7d' s.reverse with
        | none => rfl
        | some r => rw [hh] at hr; simp at hr
      have hne := pyFindAux_none_forall _ _ hnone
      have hspan : (List.dropWhile (fun c => !(c == '\x7d'))
          (s.dropWhile (fun c => !(c == '\x7b'))).reverse).reverse = [] := by
        rw [hff]
        have hdw : (s.drop i).reverse.dropWhile (fun x => !(x == '\x7d')) = [] := by
          rw [List.dropWhile_eq_nil_iff]
          intro x hx
          simp only [Bool.not_eq_true', beq_eq_false_iff_ne, ne_eq]
          exact hne x (List.mem_reverse.mpr ((List.drop_subset i s) (List.mem_reverse.mp hx)))
        rw [hdw]
        rfl
      have hL : parse_json_response s = jsonLoads s := by
        unfold parse_json_response
        rw [hf, hr]
      have hR : spec_parse_first_to_last s = jsonLoads s := by
        unfold spec_parse_first_to_last specFirstToLast
        simp only [hspan, if_pos]
      rw [hL, hR]
    | some e =>
      have hr2 := hr
      unfold pyRFind at hr2
      obtain ⟨r, hrr, hre⟩ := Option.map_eq_some'.mp hr2
      have hrlt : r < s.length := by
        have := pyFindAux_some_lt _ _ _ hrr
        rwa [List.length_reverse] at this
      by_cases hie : i < e + 1
      · have hL : parse_json_response s = jsonLoads ((s.drop i).take (e + 1 - i)) := by
          unfold parse_json_response
          rw [hf, hr]
          simp [hie]
        have hrn : r < s.length - i := by omega
        have hfind : pyFindAux '\x7d' (s.reverse.take (s.length - i)) = some r :=
          pyFindAux_some_take _ _ _ _ hrr hrn
        have hspan : (List.dropWhile (fun c => !(c == '\x7d'))
            (s.dropWhile (fun c => !(c == '\x7b'))).reverse).reverse =
            (s.drop i).take (e + 1 - i) := by
          rw [hff, List.reverse_drop, pyFindAux_some_dropWhile _ _ _ hfind,
            List.drop_take, List.reverse_take]
          simp only [List.reverse_drop, List.reverse_reverse, List.length_reverse,
            List.length_drop]
          have ha1 : s.length - r = e + 1 := by omega
          rw [ha1]
          have ha2 : e + 1 - (s.length - i - r) = i := by omega
          rw [ha2, List.drop_take]
        have hnnil : (s.drop i).take (e + 1 - i) ≠ [] := by
          intro hcon
          have hlen := congrArg List.length hcon
          rw [List.length_take, List.length_drop] at hlen
          simp at hlen
          omega
        have hR : spec_parse_first_to_last s = jsonLoads ((s.drop i).take (e + 1 - i)) := by
          unfold spec_parse_first_to_last specFirstToLast
          simp only [hspan, if_neg hnnil]
        rw [hL, hR]
      · have hL : parse_json_response s = jsonLoads s := by
          unfold parse_json_response
          rw [hf, hr]
          simp [hie]
        have hsub := pyFindAux_some_take_ne _ _ _ hrr
        have hspan : (List.dropWhile (fun c => !(c == '\x7d'))
            (s.dropWhile (fun c => !(c == '\x7b'))).reverse).reverse = [] := by
          rw [hff, List.reverse_drop]
          have hdw : (s.reverse.take (s.length - i)).dropWhile
              (fun x => !(x == '\x7d')) = [] := by
            rw [List.dropWhile_eq_nil_iff]
            intro x hx
            simp only [Bool.not_eq_true', beq_eq_false_iff_ne, ne_eq]
            have htt : s.reverse.take (s.length - i) =
                (s.reverse.take r).take (s.length - i) := by
              rw [List.take_take, min_eq_left (by omega : s.length - i ≤ r)]
            rw [htt] at hx
            exact hsub x (List.take_subset _ _ hx)
          rw [hdw]
          rfl
        have hR : spec_parse_first_to_last s = jsonLoads s := by
          unfold spec_parse_first_to_last specFirstToLast
          simp only [hspan, if_pos]
        rw [hL, hR]

/-- C5 counterexample: on prose embedding TWO top-level JSON objects, the
claim's first-balanced-span extraction parses `\x7b"a": 1\x7d` successfully,
but the code slices from the first `\x7b` to the LAST `\x7d`, producing a
non-JSON span, so `_parse_json_response` raises: the claim as stated is
false at this input. -/
theorem c5_counterexample_two_objects :
    parse_json_response c5CexInput = none ∧
    claim_parse_balanced c5CexInput = some (.obj [("a", .num 1)]) :=
  ⟨rfl, rfl⟩

/-- C5 amended: the parser extracts the span from the FIRST opening brace
through the LAST closing brace (when the first `\x7b` precedes the last
`\x7d`) and parses that, falling back to parsing the entire output when no
such span exists; in particular the worked example still yields
`\x7bmessage: "ok", choice: "A"\x7d`. -/
theorem c5_amended_first_to_last_brace_span :
    (∀ s, parse_json_response s = spec_parse_first_to_last s) ∧
    parse_json_response c5Example =
      some (.obj [("message", .str "ok"), ("choice", .str "A")]) :=
  ⟨parse_json_response_eq_first_to_last, rfl⟩

theorem ask_question_some_eq (a : DebateAgentSpec)
    (other_messages : List AgentMessage) (p : QuestionPayload) (rn : Nat)
    (m : AgentMessage) (h : ask_question a other_messages (some p) rn = some m) :
    p.question ≠ "" ∧
    m = create_agent_message a.agent_id a.agent_name p.question none .question
      (some (question_target a.agent_id other_messages p.target_agent)) rn := by
  have hred : ask_question a other_messages (some p) rn =
      if p.question = "" then none
      else some (create_agent_message a.agent_id a.agent_name p.question none
        .question (some (question_target a.agent_id other_messages p.target_agent))
        rn) := rfl
  rw [hred] at h
  by_cases hq : p.question = ""
  · rw [if_pos hq] at h
    exact absurd h (by simp)
  · rw [if_neg hq] at h
    injection h with h
    exact ⟨hq, h.symm⟩

theorem question_target_of_ne (asker_id : String)
    (other_messages : List AgentMessage) (pt : String) (h : pt ≠ "") :
    question_target asker_id other_messages pt = pt := by
  unfold question_target
  rw [if_neg]
  intro hcon
  exact h hcon.1

theorem question_target_of_empty_cons (asker_id : String)
    (other_messages : List AgentMessage) (pt t : String) (ts : List String)
    (h : pt = "") (hp : eligiblePool asker_id other_messages = t :: ts) :
    question_target asker_id other_messages pt = t := by
  have hom : other_messages ≠ [] := by
    intro hcon
    subst hcon
    simp [eligiblePool] at hp
  unfold question_target
  rw [if_pos ⟨h, hom⟩, hp]

theorem eligiblePool_ne_asker (asker_id : String)
    (other_messages : List AgentMessage) (t : String)
    (h : t ∈ eligiblePool asker_id other_messages) : t ≠ asker_id := by
  unfold eligiblePool at h
  obtain ⟨m, hm, rfl⟩ := List.mem_map.mp h
  have hf := List.mem_filter.mp hm
  simp only [decide_eq_true_eq] at hf
  exact hf.2.1

/-- C6 counterexample: the generated payload names the asker itself
(`target_agent = "a1"` from agent `"a1"`), the code keeps it verbatim, and
the resulting round-2 Question targets its own author: the claim as stated
is false at this input. -/
theorem c6_counterexample_self_target_kept :
    ask_question askerAgent c6CexMessages (some ⟨"どうして?", "a1"⟩) 2 =
      some c6CexQuestion ∧
    c6CexQuestion.target_agent = some c6CexQuestion.agent_id :=
  ⟨rfl, rfl⟩

/-- C6 amended: when the generated `target_agent` is EMPTY, the repaired
target is never the asker — it is either left empty (no eligible pool) or
drawn from other agents' round-1 opinions; but a NON-EMPTY generated target
is kept verbatim, even when it names the asker itself. -/
theorem c6_amended_fallback_target_never_asker :
    ∀ (a : DebateAgentSpec) (other_messages : List AgentMessage)
      (p : QuestionPayload) (rn : Nat) (m : AgentMessage),
    ask_question a other_messages (some p) rn = some m →
    p.target_agent = "" →
    m.target_agent = some "" ∨ ∃ t, m.target_agent = some t ∧ t ≠ a.agent_id := by
  intro a oms p rn m h hempty
  obtain ⟨hq, rfl⟩ := ask_question_some_eq a oms p rn m h
  cases hpool : eligiblePool a.agent_id oms with
  | nil =>
    left
    have htv : question_target a.agent_id oms p.target_agent = p.target_agent := by
      unfold question_target
      by_cases hom : oms = []
      · rw [if_neg]
        intro hcon
        exact hcon.2 hom
      · rw [if_pos ⟨hempty, hom⟩, hpool]
    show some (question_target a.agent_id oms p.target_agent) = some ""
    rw [htv, hempty]
  | cons t ts =>
    right
    refine ⟨t, ?_, ?_⟩
    · show some (question_target a.agent_id oms p.target_agent) = some t
      rw [question_target_of_empty_cons a.agent_id oms p.target_agent t ts hempty hpool]
    · exact eligiblePool_ne_asker a.agent_id oms t
        (by rw [hpool]; exact List.mem_cons_self _ _)

/-- C6 witness: asker `"a1"` with an empty generated target over the round-1
pool `["a2"]` gets the non-self target `"a2"`. -/
theorem c6_amended_fallback_target_never_asker_witness :
    c6WitnessQuestion.target_agent = some "" ∨
    ∃ t, c6WitnessQuestion.target_agent = some t ∧ t ≠ askerAgent.agent_id :=
  c6_amended_fallback_target_never_asker askerAgent c6CexMessages ⟨"質問", ""⟩ 2
    c6WitnessQuestion rfl rfl

/-- C7 counterexample: a round-2 question whose generated target is the
INVALID (unknown, non-empty) id `"zzz"` keeps that target verbatim instead
of being replaced by the first eligible participant `"a2"`: the claim as
stated is false at this input. -/
theorem c7_counterexample_invalid_target_kept :
    ask_question askerAgent c7Messages (some ⟨"なぜ?", "zzz"⟩) 2 =
      some c7CexQuestion ∧
    c7CexQuestion.target_agent = some "zzz" ∧
    eligiblePool "a1" c7Messages = ["a2"] ∧
    ("zzz" : String) ≠ "a2" ∧
    ∀ m ∈ c7Messages, m.agent_id ≠ "zzz" := by
  refine ⟨rfl, rfl, rfl, by decide, by decide⟩

/-- C7 amended: only an EMPTY (missing) generated target is replaced, and
then deterministically by the first id of the eligible pool in stable
`other_messages` order; a non-empty target — valid or not — is kept
verbatim.  (The function is pure, so identical eligible-pool input yields
the identical fallback target.) -/
theorem c7_amended_empty_target_first_eligible :
    ∀ (a : DebateAgentSpec) (other_messages : List AgentMessage)
      (p : QuestionPayload) (rn : Nat) (m : AgentMessage),
    ask_question a other_messages (some p) rn = some m →
    (p.target_agent = "" → ∀ t ts, eligiblePool a.agent_id other_messages = t :: ts →
      m.target_agent = some t) ∧
    (p.target_agent ≠ "" → m.target_agent = some p.target_agent) := by
  intro a oms p rn m h
  obtain ⟨hq, rfl⟩ := ask_question_some_eq a oms p rn m h
  constructor
  · intro hempty t ts hpool
    show some (question_target a.agent_id oms p.target_agent) = some t
    rw [question_target_of_empty_cons a.agent_id oms p.target_agent t ts hempty hpool]
  · intro hne
    show some (question_target a.agent_id oms p.target_agent) = some p.target_agent
    rw [question_target_of_ne a.agent_id oms p.target_agent hne]

/-- C7 witness: an empty generated target over the eligible pool `["a2"]`
falls back to `"a2"`. -/
theorem c7_amended_empty_target_first_eligible_witness :
    c7WitnessQuestion.target_agent = some "a2" :=
  (c7_amended_empty_target_first_eligible askerAgent c7Messages ⟨"質問です", ""⟩ 2
    c7WitnessQuestion rfl).1 rfl "a2" [] rfl

/-- C8 counterexample: the officer's generation succeeds with a valid
`final_choice` but `confidence = 2.0`; the code stores it unclamped, so the
completed session carries a confidence outside `[0, 1]`: the claim as stated
is false at this input. -/
theorem c8_counterexample_confidence_unclamped :
    (run_debate_process ["A", "B"] [allFailAgent] c8CexOfficer).status = .completed ∧
    (run_debate_process ["A", "B"] [allFailAgent] c8CexOfficer).confidence = some 2 ∧
    ¬ ((2 : Rat) ≤ 1) := by
  refine ⟨by decide, by decide, by norm_num⟩

/-- C8 amended: the confidence stored in the final Decision is either the
fixed fallback value 0.3 (which does lie in `[0, 1]`) — used when generation
fails or `float(confidence)` raises — or exactly the generated value
(default 0.5 when absent), stored WITHOUT range validation, so it lies in
`[0, 1]` only when the generated value does. -/
theorem c8_amended_confidence_source :
    ∀ (options : List String) (msgs : List AgentMessage)
      (g : Option DecisionPayload) (d : Decision),
    generate_decision options msgs g = some d →
    (d.confidence = 3 / 10 ∧ (0 : Rat) ≤ 3 / 10 ∧ (3 : Rat) / 10 ≤ 1) ∨
    ∃ p q, g = some p ∧ p.confidence = some q ∧ d.confidence = q := by
  intro options msgs g d h
  rcases generate_decision_confidence_cases options msgs g d h with h1 | h2
  · left
    exact ⟨h1, by norm_num, by norm_num⟩
  · right
    exact h2

/-- C8 witness: the fallback decision on failed generation carries
confidence 0.3. -/
theorem c8_amended_confidence_source_witness :
    ((⟨"A", fallback_summary, 3 / 10⟩ : Decision).confidence = 3 / 10 ∧
      (0 : Rat) ≤ 3 / 10 ∧ (3 : Rat) / 10 ≤ 1) ∨
    ∃ p q, (none : Option DecisionPayload) = some p ∧ p.confidence = some q ∧
      (⟨"A", fallback_summary, 3 / 10⟩ : Decision).confidence = q :=
  c8_amended_confidence_source ["A", "B"] [] none ⟨"A", fallback_summary, 3 / 10⟩
    (by rfl)

theorem run_debate_process_completes (options : List String)
    (a : DebateAgentSpec) (rest : List DebateAgentSpec) (officer : OfficerSpec)
    (hO : options ≠ []) :
    ∃ d, generate_decision options (debateAll4 options (a :: rest) officer)
        (officer.decideOutcome (debateAll4 options (a :: rest) officer)) = some d ∧
      d.final_choice ∈ options ∧
      run_debate_process options (a :: rest) officer =
        ⟨.completed, debateTrace options (a :: rest) officer, 6,
          some d.final_choice, some d.summary, some d.confidence⟩ := by
  obtain ⟨d, hd, hmem⟩ := generate_decision_spec options
    (debateAll4 options (a :: rest) officer)
    (officer.decideOutcome (debateAll4 options (a :: rest) officer)) hO
  refine ⟨d, hd, hmem, ?_⟩
  unfold run_debate_process
  rw [hd]

/-- C1: for a session with at least 2 options and at least one constructible
debate agent, a completed session's `final_choice` is a member of `options`:
the officer keeps the generated choice only when it is in `options` and
otherwise substitutes the tally fallback, whose result is always drawn from
`options`; a terminal Decision is always produced once round 6 begins. -/
theorem c1_completed_final_choice_in_options (options : List String)
    (agents : List DebateAgentSpec) (officer : OfficerSpec)
    (hopt : 2 ≤ options.length) (hag : agents ≠ [])
    (hc : (run_debate_process options agents officer).status = .completed) :
    ∃ c, (run_debate_process options agents officer).final_choice = some c ∧
      c ∈ options := by
  have hO : options ≠ [] := by
    intro hcon
    subst hcon
    simp at hopt
  cases agents with
  | nil => exact absurd rfl hag
  | cons a rest =>
    obtain ⟨d, _, hmem, heq⟩ := run_debate_process_completes options a rest officer hO
    rw [heq]
    exact ⟨d.final_choice, rfl, hmem⟩

/-- C1 witness: a concrete completed session whose generated decision names
the invalid option `"Z"`; the stored `final_choice` is the in-options
fallback `"A"`. -/
theorem c1_completed_final_choice_in_options_witness :
    ∃ c, (run_debate_process ["A", "B"] [okAgent] c1WitnessOfficer).final_choice =
      some c ∧ c ∈ ["A", "B"] :=
  c1_completed_final_choice_in_options ["A", "B"] [okAgent] c1WitnessOfficer
    (by decide) (List.cons_ne_nil _ _) (by decide)

/-- C2 counterexample: a roster of one agent whose EVERY generation call
fails (round 1 included) still completes: round 1 records the apology
fallback opinion (choice `"A"`), round-2 work is constructed (it yields no
question), and the session ends completed, not failed — the claim as stated
is false at this input. -/
theorem c2_counterexample_all_fail_still_completes :
    (run_debate_process ["A", "B"] [allFailAgent] allFailOfficer).status =
      .completed ∧
    (run_debate_process ["A", "B"] [allFailAgent] allFailOfficer).status ≠
      .failed ∧
    (run_debate_process ["A", "B"] [allFailAgent] allFailOfficer).final_choice =
      some "A" := by
  refine ⟨by decide, by decide, by decide⟩

/-- C2 amended: failed round-1 generation calls never fail the session —
each agent falls back to a fixed apology opinion and the session proceeds
through rounds 2-6 and completes (for any non-empty roster and non-empty
options, whatever the generation outcomes); the session transitions to
`failed` from roster problems only when ZERO debate agents are
constructible. -/
theorem c2_amended_all_fail_round1_still_completes :
    (∀ (options : List String) (agents : List DebateAgentSpec)
      (officer : OfficerSpec), agents ≠ [] → options ≠ [] →
      (run_debate_process options agents officer).status = .completed) ∧
    (∀ (options : List String) (officer : OfficerSpec),
      (run_debate_process options ([] : List DebateAgentSpec) officer).status =
        .failed) := by
  constructor
  · intro options agents officer hag hO
    cases agents with
    | nil => exact absurd rfl hag
    | cons a rest =>
      obtain ⟨d, _, _, heq⟩ := run_debate_process_completes options a rest officer hO
      rw [heq]
  · intro options officer
    rfl

/-- C2 witness: the amended completion guarantee instantiated on a concrete
roster (one succeeding agent, an officer whose generation fails). -/
theorem c2_amended_all_fail_round1_still_completes_witness :
    (run_debate_process ["X", "Y"] [okAgent] allFailOfficer).status = .completed :=
  c2_amended_all_fail_round1_still_completes.1 ["X", "Y"] [okAgent] allFailOfficer
    (List.cons_ne_nil _ _) (List.cons_ne_nil _ _)

theorem generate_response_round (a : DebateAgentSpec) (options : List String)
    (g : Option InitialPayload) : (generate_response a options g).round_number = 1 := by
  cases g with
  | none => rfl
  | some p => by_cases h : p.message = "" <;> simp [generate_response, create_agent_message, h]

theorem ask_question_round (a : DebateAgentSpec) (oms : List AgentMessage)
    (g : Option QuestionPayload) (rn : Nat) (m : AgentMessage)
    (h : ask_question a oms g rn = some m) : m.round_number = rn := by
  cases g with
  | none => exact absurd h (by simp [ask_question])
  | some p =>
    obtain ⟨_, rfl⟩ := ask_question_some_eq a oms p rn m h
    rfl

theorem respond_to_question_round (a : DebateAgentSpec) (q : AgentMessage)
    (g : Option ResponsePayload) (rn : Nat) :
    (respond_to_question a q g rn).round_number = rn := by
  cases g with
  | none => rfl
  | some p => by_cases h : p.answer = "" <;> simp [respond_to_question, create_agent_message, h]

theorem final_opinion_round (a : DebateAgentSpec) (options : List String)
    (g : Option FinalPayload) (rn : Nat) :
    (final_opinion a options g rn).round_number = rn := by
  cases g with
  | none => rfl
  | some p => by_cases h : p.message = "" <;> simp [final_opinion, create_agent_message, h]

theorem generate_officer_question_round (tm : AgentMessage) (g : Option String)
    (m : AgentMessage) (h : generate_officer_question tm g = some m) :
    m.round_number = 4 := by
  cases g with
  | none => exact absurd h (by simp [generate_officer_question])
  | some q =>
    by_cases hq : q = ""
    · exact absurd h (by simp [generate_officer_question, hq])
    · have hred : generate_officer_question tm (some q) =
          some (create_agent_message "officer" "議長" q none .officer_question
            (some tm.agent_id) 4) := by
        simp [generate_officer_question, hq]
      rw [hred] at h
      injection h with h
      rw [← h]
      rfl

theorem responseFor_round (agents : List DebateAgentSpec)
    (all : List AgentMessage) (rn : Nat) (q m : AgentMessage)
    (h : responseFor agents all rn q = some m) : m.round_number = rn := by
  cases hta : q.target_agent with
  | none => rw [responseFor, hta] at h; exact absurd h (by simp)
  | some tid =>
    by_cases htid : tid = ""
    · rw [responseFor, hta] at h
      simp [htid] at h
    · cases hfind : agents.find? (fun a => decide (a.agent_id = tid)) with
      | none =>
        rw [responseFor, hta] at h
        simp [htid, hfind] at h
      | some t =>
        rw [responseFor, hta] at h
        simp only [if_neg htid, hfind] at h
        injection h with h
        rw [← h]
        exact respond_to_question_round t q (t.respond q all rn) rn

theorem round1Messages_round (options : List String) (agents : List DebateAgentSpec) :
    ∀ m ∈ round1Messages options agents, m.round_number = 1 := by
  intro m hm
  obtain ⟨a, _, rfl⟩ := List.mem_map.mp hm
  exact generate_response_round a options a.r1

theorem round2Messages_round (agents : List DebateAgentSpec)
    (vi : List AgentMessage) : ∀ m ∈ round2Messages agents vi, m.round_number = 2 := by
  intro m hm
  unfold round2Messages at hm
  obtain ⟨q, hq, hqm⟩ := List.mem_filterMap.mp hm
  obtain ⟨a, _, rfl⟩ := List.mem_map.mp hq
  exact ask_question_round a vi (a.r2 vi) 2 m hqm

theorem questionResponses_round (agents : List DebateAgentSpec)
    (qs all : List AgentMessage) (rn : Nat) :
    ∀ m ∈ questionResponses agents qs all rn, m.round_number = rn := by
  intro m hm
  unfold questionResponses at hm
  obtain ⟨q, _, hqm⟩ := List.mem_filterMap.mp hm
  exact responseFor_round agents all rn q m hqm

theorem ask_clarifying_questions_round (officer : OfficerSpec)
    (msgs : List AgentMessage) :
    ∀ m ∈ ask_clarifying_questions officer msgs, m.round_number = 4 := by
  intro m hm
  unfold ask_clarifying_questions at hm
  obtain ⟨pos, _, hpm⟩ := List.mem_filterMap.mp hm
  exact generate_officer_question_round pos (officer.officerQ pos msgs) m hpm

theorem round5Messages_round (options : List String)
    (agents : List DebateAgentSpec) (all : List AgentMessage) :
    ∀ m ∈ round5Messages options agents all, m.round_number = 5 := by
  intro m hm
  obtain ⟨a, _, rfl⟩ := List.mem_map.mp hm
  exact final_opinion_round a options (a.r5 all) 5

theorem debateM4_round (options : List String) (agents : List DebateAgentSpec)
    (officer : OfficerSpec) :
    ∀ m ∈ debateM4 options agents officer, m.round_number = 4 := by
  intro m hm
  unfold debateM4 at hm
  by_cases hoq : debateOQ options agents officer = []
  · rw [if_pos hoq] at hm
    cases hm
  · rw [if_neg hoq] at hm
    exact questionResponses_round agents _ _ 4 m hm

theorem pairwise_round_le_of_const (l : List AgentMessage) (k : Nat)
    (hl : ∀ m ∈ l, m.round_number = k) :
    List.Pairwise (fun a b : AgentMessage => a.round_number ≤ b.round_number) l := by
  induction l with
  | nil => exact List.Pairwise.nil
  | cons x xs ih =>
    refine List.Pairwise.cons ?_ (ih (fun m hm => hl m (List.mem_cons_of_mem _ hm)))
    intro b hb
    rw [hl x (List.mem_cons_self _ _), hl b (List.mem_cons_of_mem _ hb)]

theorem traceBlockBase (k : Nat) (l : List AgentMessage)
    (hl : ∀ m ∈ l, m.round_number = k) :
    List.Pairwise (fun p q : Nat × AgentMessage =>
      p.2.round_number ≤ q.2.round_number) (tagRound k l) ∧
    (∀ p ∈ tagRound k l, p.2.round_number ≤ p.1) ∧
    (∀ p ∈ tagRound k l, k ≤ p.2.round_number) := by
  refine ⟨?_, ?_, ?_⟩
  · unfold tagRound
    rw [List.pairwise_map]
    exact pairwise_round_le_of_const l k hl
  · intro p hp
    obtain ⟨m, hm, rfl⟩ := List.mem_map.mp hp
    rw [hl m hm]
  · intro p hp
    obtain ⟨m, hm, rfl⟩ := List.mem_map.mp hp
    rw [hl m hm]

theorem traceBlock (k k' : Nat) (l : List AgentMessage)
    (tr : List (Nat × AgentMessage))
    (hl : ∀ m ∈ l, m.round_number = k) (hk : k ≤ k')
    (h1 : List.Pairwise (fun p q : Nat × AgentMessage =>
      p.2.round_number ≤ q.2.round_number) tr)
    (h2 : ∀ p ∈ tr, p.2.round_number ≤ p.1)
    (h3 : ∀ p ∈ tr, k' ≤ p.2.round_number) :
    List.Pairwise (fun p q : Nat × AgentMessage =>
      p.2.round_number ≤ q.2.round_number) (tagRound k l ++ tr) ∧
    (∀ p ∈ tagRound k l ++ tr, p.2.round_number ≤ p.1) ∧
    (∀ p ∈ tagRound k l ++ tr, k ≤ p.2.round_number) := by
  obtain ⟨hb1, hb2, hb3⟩ := traceBlockBase k l hl
  refine ⟨?_, ?_, ?_⟩
  · rw [List.pairwise_append]
    refine ⟨hb1, h1, ?_⟩
    intro a ha b hb
    obtain ⟨m, hm, rfl⟩ := List.mem_map.mp ha
    have := h3 b hb
    rw [hl m hm]
    omega
  · intro p hp
    rcases List.mem_append.mp hp with hp | hp
    · exact hb2 p hp
    · exact h2 p hp
  · intro p hp
    rcases List.mem_append.mp hp with hp | hp
    · exact hb3 p hp
    · have := h3 p hp
      omega

/-- C9: in the append-ordered transcript trace of any session run, the
`round_number` values are monotonically non-decreasing, and each appended
message's `round_number` is at most the session's `current_round` at the
moment of its append (in fact equal to it). -/
theorem c9_transcript_rounds_monotone (options : List String)
    (agents : List DebateAgentSpec) (officer : OfficerSpec) :
    List.Pairwise (fun p q : Nat × AgentMessage =>
      p.2.round_number ≤ q.2.round_number)
      (run_debate_process options agents officer).trace ∧
    ∀ p ∈ (run_debate_process options agents officer).trace,
      p.2.round_number ≤ p.1 := by
  cases agents with
  | nil =>
    constructor
    · exact List.Pairwise.nil
    · intro p hp
      rw [show (run_debate_process options [] officer).trace = [] from rfl] at hp
      cases hp
  | cons a rest =>
    have htr : (run_debate_process options (a :: rest) officer).trace =
        debateTrace options (a :: rest) officer := by
      unfold run_debate_process
      cases generate_decision options (debateAll4 options (a :: rest) officer)
        (officer.decideOutcome (debateAll4 options (a :: rest) officer)) <;> rfl
    rw [htr]
    unfold debateTrace
    have hb5 := traceBlockBase 5 (debateM5 options (a :: rest) officer)
      (round5Messages_round options (a :: rest) _)
    have hb4b := traceBlock 4 5 (debateM4 options (a :: rest) officer) _
      (debateM4_round options (a :: rest) officer) (by omega) hb5.1 hb5.2.1 hb5.2.2
    have hb4a := traceBlock 4 4 (debateOQ options (a :: rest) officer) _
      (ask_clarifying_questions_round officer _) (le_refl 4) hb4b.1 hb4b.2.1 hb4b.2.2
    have hb3 := traceBlock 3 4 (debateM3 options (a :: rest)) _
      (questionResponses_round (a :: rest) _ _ 3) (by omega) hb4a.1 hb4a.2.1 hb4a.2.2
    have hb2 := traceBlock 2 3 (debateM2 options (a :: rest)) _
      (round2Messages_round (a :: rest) _) (by omega) hb3.1 hb3.2.1 hb3.2.2
    have hb1 := traceBlock 1 2 (debateM1 options (a :: rest)) _
      (round1Messages_round options (a :: rest)) (by omega) hb2.1 hb2.2.1 hb2.2.2
    exact ⟨hb1.1, hb1.2.1⟩
